import Mathlib

/-!
Verification of the HydraDashboard gRPC-Web transport layer.

The definitions below are a shallow embedding of the client-side RPC
transport in `src/src/store/index.ts` (class `HydraGrpcWebClient`) and of
the cache-invalidation / event-stream hooks in
`src/src/hooks/useRealHydraData.ts`.  Byte buffers are modelled as
`List Nat` (each element one byte), strings as Lean `String`, and
JavaScript exceptions as explicit error results.
-/

namespace HydraDashboard

/-! ## Frame codec

`grpcCall` builds the request frame (source lines 72-83):
one compression-flag byte `0`, a 4-byte big-endian length written with
`DataView.setUint32` (which truncates to 32 bits), then the payload.
Response deframing (source lines 186-192) is `new Uint8Array(buf, 5)`:
it raises a `RangeError` when the buffer holds fewer than 5 bytes and
otherwise returns everything after the first 5 bytes. -/

/-- The four big-endian bytes of `n % 2^32`, as written by `setUint32`. -/
def be32 (n : Nat) : List Nat :=
  [n / 2 ^ 24 % 256, n / 2 ^ 16 % 256, n / 2 ^ 8 % 256, n % 256]

/-- Big-endian 32-bit read of the four length bytes. -/
def fromBe32 : List Nat → Nat
  | [a, b, c, d] => a * 2 ^ 24 + b * 2 ^ 16 + c * 2 ^ 8 + d
  | _ => 0

/-- Request framing from `grpcCall` (source lines 72-83). -/
def encodeFrame (p : List Nat) : List Nat :=
  0 :: (be32 (p.length % 2 ^ 32) ++ p)

/-- Response deframing, `new Uint8Array(buf, 5)` on an `ArrayBuffer`
(source lines 186-192): `RangeError` for buffers shorter than 5 bytes,
otherwise the bytes after the 5-byte header.  No byte of the 4-byte
length prefix is inspected. -/
def decodeFrame (b : List Nat) : Except String (List Nat) :=
  if b.length < 5 then .error "RangeError: start offset 5 is outside the bounds of the buffer"
  else .ok (b.drop 5)

/-- The length declared by a frame header (bytes 1-4, big-endian). -/
def declaredLen (b : List Nat) : Nat :=
  fromBe32 ((b.drop 1).take 4)

def exceptIsOk {ε α : Type} : Except ε α → Bool
  | .ok _ => true
  | .error _ => false

/-! ## Text scanners used by the fallback decoder

The text-parsing workarounds in `grpcCall` (source lines 403-514) use
JavaScript string search and regular expressions.  They are embedded
here as executable scanners over `List Char`. -/

/-- Substring search, as in `String.prototype.includes`. -/
def listHasSub (pat : List Char) : List Char → Bool
  | [] => pat.isEmpty
  | c :: rest => pat.isPrefixOf (c :: rest) || listHasSub pat rest

/-- `responseText.includes("grpc-status:0")`, the recognized success
marker of the fallback decoder. -/
def hasSuccessMarker (s : String) : Bool :=
  listHasSub "grpc-status:0".toList s.toList

/-- A hexadecimal digit, case-insensitive (character class `[0-9a-f]`
with the `i` flag). -/
def isHexChar (c : Char) : Bool :=
  c.isDigit || (97 ≤ c.toNat && c.toNat ≤ 102) || (65 ≤ c.toNat && c.toNat ≤ 70)

/-- The next `n` characters exist and are all hexadecimal digits. -/
def hexRun : Nat → List Char → Bool
  | 0, _ => true
  | _ + 1, [] => false
  | n + 1, c :: rest => isHexChar c && hexRun n rest

/-- Match of the asset-id pattern `0x[0-9a-f]\x7b64\x7d` (flag `i`)
anchored at the head of the list. -/
def assetIdAt : List Char → Option (List Char)
  | '0' :: x :: rest =>
      if (x == 'x' || x == 'X') && hexRun 64 rest then
        some ('0' :: x :: rest.take 64)
      else none
  | _ => none

/-- Leftmost match of the asset-id pattern, as in
`responseText.match(assetIdPattern)` (source line 422). -/
def findAssetId : List Char → Option (List Char)
  | [] => none
  | c :: rest =>
      match assetIdAt (c :: rest) with
      | some m => some m
      | none => findAssetId rest

/-- Maximal run of decimal digits at the head, with the remainder. -/
def takeDigits : List Char → List Char × List Char
  | [] => ([], [])
  | c :: rest =>
      if c.isDigit then
        let p := takeDigits rest
        (c :: p.1, p.2)
      else ([], c :: rest)

/-- Greedy match of the amount pattern `\d+\.\d+` anchored at the head,
returning the match and the remainder. -/
def matchAmountAt (l : List Char) : Option (List Char × List Char) :=
  let p1 := takeDigits l
  if p1.1.isEmpty then none
  else
    match p1.2 with
    | '.' :: r2 =>
        let p2 := takeDigits r2
        if p2.1.isEmpty then none else some (p1.1 ++ '.' :: p2.1, p2.2)
    | _ => none

/-- Global scan for `\d+\.\d+` matches; the fuel bounds the recursion
and every step consumes at least one character, so a fuel equal to the
length of the scanned list never runs out. -/
def findAmountsAux : Nat → List Char → List (List Char)
  | 0, _ => []
  | _ + 1, [] => []
  | fuel + 1, c :: rest =>
      match matchAmountAt (c :: rest) with
      | some (m, r) => m :: findAmountsAux fuel r
      | none => findAmountsAux fuel rest

/-- All matches of `\d+\.\d+` (source line 429). -/
def findAmounts (l : List Char) : List (List Char) :=
  findAmountsAux l.length l

/-- Leftmost match of `[a-f0-9]\x7b8\x7d` (flag `i`), the Bitcoin
network-id pattern of the GetNetworks text parser (source line 474). -/
def findHex8 : List Char → Option (List Char)
  | [] => none
  | c :: rest =>
      if hexRun 8 (c :: rest) then some ((c :: rest).take 8)
      else findHex8 rest

/-- Global scan for `\d\x7b6,8\x7d`: at a digit run of length at least
6 the greedy match takes up to 8 digits and the scan resumes after
them; shorter runs produce no match.  Fuel as in `findAmountsAux`. -/
def findDigits68Aux : Nat → List Char → List (List Char)
  | 0, _ => []
  | _ + 1, [] => []
  | fuel + 1, c :: rest =>
      if c.isDigit then
        let p := takeDigits (c :: rest)
        if 6 ≤ p.1.length then
          p.1.take 8 :: findDigits68Aux fuel (p.1.drop 8 ++ p.2)
        else
          findDigits68Aux fuel p.2
      else
        findDigits68Aux fuel rest

/-- All matches of the EVM network-id pattern (source line 481). -/
def findDigits68 (l : List Char) : List (List Char) :=
  findDigits68Aux l.length l

/-- `parseInt` on a digit string. -/
def digitsToNat (l : List Char) : Nat :=
  l.foldl (fun n c => n * 10 + (c.toNat - 48)) 0

/-- `[...new Set(xs)]`: duplicates removed, first occurrences kept. -/
def dedupFirst (l : List String) : List String :=
  l.foldl (fun acc s => if acc.contains s then acc else acc ++ [s]) []

/-! ## Data model of the transport layer -/

inductive Protocol
  | BITCOIN
  | EVM
deriving DecidableEq

structure Network where
  protocol : Protocol
  id : String
deriving DecidableEq

/-- One balance entry of the text-parsing workaround; the source stores
`parseFloat` of the two matched amount strings, modelled here by the
matched strings themselves. -/
structure BalVal where
  onChain : String
  offChain : String
deriving DecidableEq

/-- A balances record keyed by asset id, as a key-value list. -/
abbrev BalMap := List (String × BalVal)

structure FeeRate where
  baseFeePerUnit : String
  maxTipFeePerUnit : String
  maxPricePerUnit : String
deriving DecidableEq

structure FeeEstimateV where
  low : Option FeeRate
  medium : Option FeeRate
  high : Option FeeRate
deriving DecidableEq

structure FeeTriple where
  low : FeeRate
  medium : FeeRate
  high : FeeRate
deriving DecidableEq

structure ChannelV where
  id : String
deriving DecidableEq

/-- Shapes of structured protobuf decode results that the per-domain
operations project fields out of; responses whose fields no claim
inspects are collapsed into `otherResp`. -/
inductive DecodedVal
  | networksResp (networks : Option (List Network))
  | balancesResp (balances : BalMap)
  | channelsResp (channels : Option (List ChannelV))
  | feeEstimatesResp (feeEstimate : Option FeeEstimateV)
  | otherResp (tag : Nat)
deriving DecidableEq

/-- Everything `grpcCall` can produce: a structured decode result, one
of the literal workaround values from the source, or a raised error. -/
inductive CallResult
  | decoded (v : DecodedVal)
  | marketsEmptyList
  | initMarketOk
  | emptyResp
  | textBalances (m : BalMap)
  | textNetworks (ns : List Network)
  | transactionsEmptyList
  | channelsEmptyList
  | nodeIdsEmptyList
  | zeroPrice
  | assetsEmptyList
  | assetNull
  | err (msg : String)
deriving DecidableEq

def isErr : CallResult → Bool
  | .err _ => true
  | _ => false

/-- The registry of per-method protobuf response decoders, abstracted:
given service path, method and the deframed message bytes it either
yields a decoded value or fails. -/
abbrev PbDecoder := String → String → List Nat → Option DecodedVal

/-- The parts of a `fetch` response that `grpcCall` inspects. -/
structure HttpResponse where
  httpStatus : Nat
  grpcStatus : Option String
  grpcMessage : String
  bodyBytes : List Nat
  bodyText : String

/-- One structured decode attempt: deframe with `decodeFrame` (the
`RangeError` on short bodies is caught like a decode failure), then run
the registered decoder. -/
def tryDecode (pb : PbDecoder) (servicePath method : String) (bytes : List Nat) :
    Option DecodedVal :=
  match decodeFrame bytes with
  | .error _ => none
  | .ok msg => pb servicePath method msg

/-! ## The call executor `grpcCall`

Embedding of `HydraGrpcWebClient.grpcCall` (source lines 60-753).  The
three top-level cases follow the source: no `grpc-status` header
(lines 101-517), header `0` (lines 519-686), any other header value
(lines 687-690). -/

/-- GetBalances text-parsing workaround (source lines 417-446), reached
only when the body contains the success marker: the first asset-id
match together with the first two amount matches yields a one-entry
balances record, anything else yields the empty balances record. -/
def parseBalancesText (body : String) : CallResult :=
  match findAssetId body.toList with
  | some assetId =>
      match findAmounts body.toList with
      | a0 :: a1 :: _ =>
          .textBalances [(String.mk assetId, ⟨String.mk a0, String.mk a1⟩)]
      | _ => .textBalances []
  | none => .textBalances []

def knownEvmIds : List String :=
  ["1", "11155111", "421614", "42161", "137", "56", "10", "43114"]

/-- Protocol classification of one extracted network id
(source lines 493-508). -/
def classifyNetworkId (id : String) : Network :=
  let isBtc := id.length == 8 && id.toList.all isHexChar
  let isKnownEvm := knownEvmIds.contains id
  let proto := if isKnownEvm then Protocol.EVM
    else if isBtc then Protocol.BITCOIN else Protocol.EVM
  ⟨proto, id⟩

/-- GetNetworks text-parsing workaround (source lines 465-513): one
8-hex-digit match, then all 6-to-8-digit matches filtered to the open
interval (0, 100000000), deduplicated keeping first occurrences and
classified. -/
def parseNetworksText (body : String) : List Network :=
  let cs := body.toList
  let bitcoinIds : List String :=
    match findHex8 cs with
    | some m => [String.mk m]
    | none => []
  let evmIds := (findDigits68 cs).filterMap fun d =>
    let n := digitsToNat d
    if 0 < n && n < 100000000 then some (String.mk d) else none
  let ids := dedupFirst (bitcoinIds ++ evmIds)
  (ids.map classifyNetworkId).filter fun n => n.id.length != 0

/-- Final workaround checks of the no-header branch
(source lines 457-516): ConnectToPeer and GetNetworks with the success
marker in the body; everything else raises. -/
def textFallbackTail (servicePath method : String) (r : HttpResponse) : CallResult :=
  if servicePath == "hydra_app.NodeService" && method == "ConnectToPeer" &&
      hasSuccessMarker r.bodyText then
    .emptyResp
  else if servicePath == "hydra_app.AppService" && method == "GetNetworks" &&
      hasSuccessMarker r.bodyText then
    .textNetworks (parseNetworksText r.bodyText)
  else
    .err "No gRPC headers in response"

/-- Text-parsing fallback of the no-header branch for HTTP 200
responses (source lines 403-516). -/
def textFallback200 (servicePath method : String) (r : HttpResponse) : CallResult :=
  if (servicePath == "hydra_app.WalletService" && method == "GetBalances") ||
      (servicePath == "hydra_app.OrderbookService" && method == "InitMarket") then
    if hasSuccessMarker r.bodyText then
      if servicePath == "hydra_app.OrderbookService" && method == "InitMarket" then
        .initMarketOk
      else
        parseBalancesText r.bodyText
    else
      textFallbackTail servicePath method r
  else if servicePath == "hydra_app.OrderbookService" &&
      (method == "GetMarketsInfo" || method == "GetInitializedMarkets") then
    .marketsEmptyList
  else
    textFallbackTail servicePath method r

/-- The (service, method) pairs given a structured decode attempt whose
failure falls through to text parsing in the no-header branch
(source lines 184-392). -/
def hasNullBranchDecoder (servicePath method : String) : Bool :=
  (servicePath == "hydra_app.AppService" && method == "GetNetworks") ||
  (servicePath == "hydra_app.BlockchainService" && method == "GetFeeEstimates") ||
  (servicePath == "hydra_app.WalletService" &&
    (method == "GetBalances" || method == "GetTransactions")) ||
  (servicePath == "hydra_app.PricingService" && method == "GetAssetFiatPrice") ||
  (servicePath == "hydra_app.AssetService" && method == "GetAssets") ||
  (servicePath == "hydra_app.WatchOnlyNodeService" && method == "GetChannels") ||
  (servicePath == "hydra_app.NodeService" &&
    (method == "GetConnectedPeers" || method == "EstimateOpenChannelFee" ||
      method == "OpenChannel"))

/-- The no-`grpc-status`-header branch of `grpcCall`
(source lines 101-517). -/
def grpcCallNull (pb : PbDecoder) (servicePath method : String) (r : HttpResponse) :
    CallResult :=
  if r.httpStatus == 200 then
    if servicePath == "hydra_app.OrderbookService" &&
        (method == "GetMarketsInfo" || method == "GetInitializedMarkets") then
      -- source lines 110-138: decode, else an empty markets record
      match tryDecode pb servicePath method r.bodyBytes with
      | some v => .decoded v
      | none => .marketsEmptyList
    else if servicePath == "hydra_app.RentalService" then
      if method == "GetRentalNodeInfo" || method == "GetRentableAssetInfo" ||
          method == "EstimateRentChannelFee" || method == "RentChannel" then
        -- source lines 141-179: decode, else raise
        match tryDecode pb servicePath method r.bodyBytes with
        | some v => .decoded v
        | none => .err "Failed to decode rental response"
      else
        -- other rental methods re-read the consumed body, which raises
        .err "response body already consumed"
    else if servicePath == "hydra_app.ClientService" && method == "GetDepositAddress" then
      -- source lines 222-239: decode, else raise
      match tryDecode pb servicePath method r.bodyBytes with
      | some v => .decoded v
      | none => .err "Failed to decode GetDepositAddress response"
    else if hasNullBranchDecoder servicePath method then
      match tryDecode pb servicePath method r.bodyBytes with
      | some v => .decoded v
      | none => textFallback200 servicePath method r
    else
      textFallback200 servicePath method r
  else
    -- source line 516, reached with a non-200 status and no header
    .err "No gRPC headers in response"

/-- The `grpc-status: 0` branch of `grpcCall` (source lines 519-686):
per-method structured decode, method-specific default values on decode
failure, and a plain empty object for every other method. -/
def grpcCallOk (pb : PbDecoder) (servicePath method : String) (r : HttpResponse) :
    CallResult :=
  if (servicePath == "hydra_app.AppService" && method == "GetNetworks") ||
      (servicePath == "hydra_app.WalletService" && method == "GetBalances") ||
      (servicePath == "hydra_app.BlockchainService" && method == "GetFeeEstimates") then
    -- decode failure falls through every later check to the final
    -- empty-object return at source line 686
    match tryDecode pb servicePath method r.bodyBytes with
    | some v => .decoded v
    | none => .emptyResp
  else if servicePath == "hydra_app.WalletService" && method == "GetTransactions" then
    match tryDecode pb servicePath method r.bodyBytes with
    | some v => .decoded v
    | none => .transactionsEmptyList
  else if servicePath == "hydra_app.WatchOnlyNodeService" && method == "GetChannels" then
    match tryDecode pb servicePath method r.bodyBytes with
    | some v => .decoded v
    | none => .channelsEmptyList
  else if servicePath == "hydra_app.NodeService" && method == "GetConnectedPeers" then
    match tryDecode pb servicePath method r.bodyBytes with
    | some v => .decoded v
    | none => .nodeIdsEmptyList
  else if servicePath == "hydra_app.PricingService" && method == "GetAssetFiatPrice" then
    match tryDecode pb servicePath method r.bodyBytes with
    | some v => .decoded v
    | none => .zeroPrice
  else if servicePath == "hydra_app.AssetService" && method == "GetAssets" then
    match tryDecode pb servicePath method r.bodyBytes with
    | some v => .decoded v
    | none => .assetsEmptyList
  else if servicePath == "hydra_app.AssetService" && method == "GetAsset" then
    match tryDecode pb servicePath method r.bodyBytes with
    | some v => .decoded v
    | none => .assetNull
  else
    .emptyResp

/-- `HydraGrpcWebClient.grpcCall`, dispatching on the response status
header. -/
def grpcCall (pb : PbDecoder) (servicePath method : String) (r : HttpResponse) :
    CallResult :=
  match r.grpcStatus with
  | none => grpcCallNull pb servicePath method r
  | some s =>
      if s == "0" then grpcCallOk pb servicePath method r
      else .err ("gRPC error: status=" ++ s ++ ", message=" ++ r.grpcMessage)

/-! ## Key-value record operations

`getBalances` merges per-network balance records with `Object.assign`
(source line 813); a JavaScript object keeps at most one entry per key,
with later assignments overwriting earlier ones. -/

/-- Property lookup in a key-value record. -/
def lookupKey (k : String) : BalMap → Option BalVal
  | [] => none
  | (k', v) :: rest => if k' = k then some v else lookupKey k rest

/-- Property assignment: overwrite the entry of `k` when present,
append it otherwise. -/
def assignKey : BalMap → String → BalVal → BalMap
  | [], k, v => [(k, v)]
  | (k', v') :: rest, k, v =>
      if k' = k then (k, v) :: rest else (k', v') :: assignKey rest k v

/-- `Object.assign(target, src)`: assign every entry of `src` into
`target`, in order. -/
def objAssign (target src : BalMap) : BalMap :=
  src.foldl (fun t kv => assignKey t kv.1 kv.2) target

/-- The keys of a record. -/
def keys (m : BalMap) : List String :=
  m.map Prod.fst

/-! ## Multi-endpoint fan-out

`getBalances` (source lines 781-836) and `getChannels` (source lines
881-921) loop over the configured networks, catch and log each
per-network failure, and merge the successful results.  The per-network
call outcomes are the input here; `CallResult.err` is a raised
per-network exception. -/

/-- The `balances` field of a call outcome, when present. -/
def respBalances : CallResult → Option BalMap
  | .decoded (.balancesResp m) => some m
  | .textBalances m => some m
  | _ => none

/-- One iteration of the `getBalances` loop (source lines 794-832):
a raised error is caught and skipped; a result with a `balances` field
is merged with `Object.assign`; any other result is only counted. -/
def balStep (acc : BalMap) (res : CallResult) : BalMap :=
  match res with
  | .err _ => acc
  | res =>
      match respBalances res with
      | some m => objAssign acc m
      | none => acc

/-- The `getBalances` aggregate over the per-network outcomes. -/
def getBalancesFanOut (results : List CallResult) : BalMap :=
  results.foldl balStep []

/-- The `channels` field of a call outcome, when present. -/
def respChannels : CallResult → Option (List ChannelV)
  | .decoded (.channelsResp cs) => cs
  | .channelsEmptyList => some []
  | _ => none

/-- One iteration of the `getChannels` loop (source lines 895-914). -/
def chanStep (acc : List ChannelV) (res : CallResult) : List ChannelV :=
  match res with
  | .err _ => acc
  | res =>
      match respChannels res with
      | some cs => acc ++ cs
      | none => acc

/-- The `getChannels` aggregate over the per-network outcomes. -/
def getChannelsFanOut (results : List CallResult) : List ChannelV :=
  results.foldl chanStep []

/-- The balance map of one per-network outcome when the call succeeded
and carried balances. -/
def balSuccess : CallResult → Option BalMap
  | .err _ => none
  | res => respBalances res

/-- The channel list of one per-network outcome when the call succeeded
and carried channels. -/
def chanSuccess : CallResult → Option (List ChannelV)
  | .err _ => none
  | res => respChannels res

/-- The successful per-network balance maps, in network order. -/
def successfulBalanceMaps (results : List CallResult) : List BalMap :=
  results.filterMap balSuccess

/-- The successful per-network channel lists, in network order. -/
def successfulChannelLists (results : List CallResult) : List (List ChannelV) :=
  results.filterMap chanSuccess

/-- Modelled from the spec words (fan-out aggregate rule): the merge of
exactly the successful per-network results. -/
def specMergeBalances (results : List CallResult) : BalMap :=
  (successfulBalanceMaps results).foldl objAssign []

/-- Modelled from the spec words (fan-out aggregate rule): the
concatenation of exactly the successful per-network channel lists. -/
def specMergeChannels (results : List CallResult) : List ChannelV :=
  (successfulChannelLists results).foldl (· ++ ·) []

/-! ## Per-domain operations

Collaborator-facing wrappers around `grpcCall`, as functions of the
call outcome (source lines 758-1915). -/

/-- The `networks` field of a call outcome, when present. -/
def respNetworks : CallResult → Option (List Network)
  | .decoded (.networksResp ns) => ns
  | .textNetworks ns => some ns
  | _ => none

/-- `getNetworks` (source lines 758-776): `result.networks || []`, and
the catch block returns the empty list. -/
def getNetworksOp (res : CallResult) : List Network :=
  match res with
  | .err _ => []
  | res => (respNetworks res).getD []

/-- The `feeEstimate` field of a call outcome, when present. -/
def respFeeEstimate : CallResult → Option FeeEstimateV
  | .decoded (.feeEstimatesResp fe) => fe
  | _ => none

def btcLowFee : FeeRate := ⟨"5", "0", "5"⟩

def btcMediumFee : FeeRate := ⟨"15", "0", "15"⟩

def btcHighFee : FeeRate := ⟨"30", "0", "30"⟩

/-- Hardcoded Bitcoin fee fallback (source lines 1692-1696). -/
def btcFallbackFees : FeeTriple := ⟨btcLowFee, btcMediumFee, btcHighFee⟩

/-- Hardcoded EVM fee fallback in wei (source lines 1699-1703). -/
def evmFallbackFees : FeeTriple :=
  ⟨⟨"8000000000", "1000000000", "9000000000"⟩,
    ⟨"12000000000", "2000000000", "14000000000"⟩,
    ⟨"20000000000", "3000000000", "23000000000"⟩⟩

/-- Catch-block fallback of `getFeeEstimates`, chosen by protocol
(source lines 1690-1704). -/
def protocolFallbackFees (network : Network) : FeeTriple :=
  if network.protocol = Protocol.BITCOIN then btcFallbackFees else evmFallbackFees

/-- `getFeeEstimates` (source lines 1661-1706): a missing `feeEstimate`
field raises into the catch block, the catch block substitutes the
protocol-specific hardcoded fees, and present-but-partial estimates get
per-level literal defaults. -/
def getFeeEstimatesOp (network : Network) (res : CallResult) : FeeTriple :=
  match res with
  | .err _ => protocolFallbackFees network
  | res =>
      match respFeeEstimate res with
      | none => protocolFallbackFees network
      | some fe =>
          ⟨fe.low.getD btcLowFee, fe.medium.getD btcMediumFee, fe.high.getD btcHighFee⟩

/-- `connectToPeer` (source lines 994-1015): discards the result on
success, rethrows on failure. -/
def connectToPeerOp (res : CallResult) : Except String Unit :=
  match res with
  | .err e => .error e
  | _ => .ok ()

/-- `openChannel` (source lines 1175-1215): returns the result,
rethrows on failure. -/
def openChannelOp (res : CallResult) : Except String CallResult :=
  match res with
  | .err e => .error e
  | res => .ok res

/-- `depositChannel` (source lines 1280-1330): returns the result,
rethrows on failure. -/
def depositChannelOp (res : CallResult) : Except String CallResult :=
  match res with
  | .err e => .error e
  | res => .ok res

/-- `withdrawChannel` (source lines 1357-1381). -/
def withdrawChannelOp (res : CallResult) : Except String CallResult :=
  match res with
  | .err e => .error e
  | res => .ok res

/-- `closeChannel` (source lines 1408-1432). -/
def closeChannelOp (res : CallResult) : Except String CallResult :=
  match res with
  | .err e => .error e
  | res => .ok res

/-- `forceCloseChannel` (source lines 1459-1483). -/
def forceCloseChannelOp (res : CallResult) : Except String CallResult :=
  match res with
  | .err e => .error e
  | res => .ok res

/-! ## Cache invalidation coordinator

`useNodeEventStream.handleNodeEvent` (hook source lines 541-573) and
`useConnectToPeer.onSuccess` (hook source lines 315-330).  An
invalidation is a pair of a delay in milliseconds (0 for an immediate
`invalidateQueries` call) and a query key. -/

abbrev QueryKey := List String

def channelsKey : QueryKey := ["hydra", "channels"]

def balancesKey : QueryKey := ["hydra", "balances"]

def paymentsKey : QueryKey := ["hydra", "payments"]

def peersKey : QueryKey := ["hydra", "peers"]

/-- A decoded node event: which of the mutually exclusive payload
variants are present. -/
structure NodeEventV where
  channelUpdate : Bool
  channelClosed : Bool
  assetChannelUpdate : Bool
  paymentUpdate : Bool
deriving DecidableEq

/-- The invalidations issued by `handleNodeEvent` for one event (hook
source lines 541-573); the handler returns early when the owning hook
has unmounted, and every `invalidateQueries` call it makes is
immediate. -/
def handleNodeEvent (mounted : Bool) (e : NodeEventV) : List (Nat × QueryKey) :=
  if !mounted then []
  else
    (if e.channelUpdate then [(0, channelsKey), (0, balancesKey)] else []) ++
    (if e.channelClosed then [(0, channelsKey), (0, balancesKey)] else []) ++
    (if e.assetChannelUpdate then [(0, channelsKey), (0, balancesKey)] else []) ++
    (if e.paymentUpdate then [(0, paymentsKey), (0, balancesKey)] else [])

/-- The invalidations issued by `useConnectToPeer.onSuccess` (hook
source lines 315-330): the peers key immediately and again after 2 and
5 seconds. -/
def connectToPeerOnSuccess : List (Nat × QueryKey) :=
  [(0, peersKey), (2000, peersKey), (5000, peersKey)]

/-- The invalidations issued by `handleClientEvent` (hook source lines
632-641). -/
def handleClientEvent (mounted : Bool) : List (Nat × QueryKey) :=
  if mounted then [(0, balancesKey)] else []

/-! ## Stream subscriber state machine

One subscription = the `processStream` loop of
`subscribeToNodeEvents` / `subscribeToClientEvents` (source lines
1515-1656) together with the owning hook
(`useNodeEventStream` / `useClientEventStream`, hook source lines
530-680).  The machine consumes external occurrences in order and
records the handler invocations the code makes. -/

/-- The two hook variants: the node-event hook schedules a 5-second
reconnect in `handleError` (hook source lines 575-585); the
client-event hook does not (hook source lines 643-647). -/
structure StreamCfg where
  reconnects : Bool
deriving DecidableEq

def nodeCfg : StreamCfg := ⟨true⟩

def clientCfg : StreamCfg := ⟨false⟩

/-- Subscriber state: `mounted` is the hook flag cleared on effect
cleanup, `isActive` the flag cleared by the returned unsubscribe
function, `connAlive` whether the current reader still delivers, and
`reconnectPending` whether a `setTimeout` reconnect is waiting. -/
structure SubState where
  mounted : Bool
  isActive : Bool
  connAlive : Bool
  reconnectPending : Bool
deriving DecidableEq

/-- State after a successful subscribe with the hook mounted. -/
def subInit : SubState := ⟨true, true, true, false⟩

/-- External occurrences, in temporal order. -/
inductive SubInput
  | chunkGood (eventTag : Nat)
  | chunkBad
  | readError
  | cancelHandle
  | unmountCleanup
  | reconnectTimer
deriving DecidableEq

/-- Observable effects: caller-supplied handler invocations and the
scheduling of a reconnect timer. -/
inductive SubOutput
  | onEventCall (eventTag : Nat)
  | onErrorCall
  | scheduleReconnect (delayMs : Nat)
deriving DecidableEq

/-- One step of the subscriber.

Semantics taken from the source: a delivered chunk whose decode
succeeds is dispatched to `onEvent` (source lines 1550-1561); a chunk
whose decode fails is logged with `console.warn` and skipped (source
lines 1562-1564); a read error invokes `onError` when the loop is still
active (source lines 1566-1570) and the mounted node-event hook then
schedules one reconnect after 5000 ms (hook source lines 575-585); the
unsubscribe function clears `isActive` and cancels the reader (source
lines 1542-1545); the effect cleanup clears `mounted` and calls
unsubscribe (hook source lines 604-610); a firing reconnect timer
re-subscribes only while the hook is mounted (hook source lines
580-584). -/
def subStep (cfg : StreamCfg) (s : SubState) : SubInput → SubState × List SubOutput
  | .chunkGood t =>
      if s.connAlive && s.isActive then (s, [.onEventCall t]) else (s, [])
  | .chunkBad => (s, [])
  | .readError =>
      if s.connAlive && s.isActive then
        if s.mounted && cfg.reconnects then
          ({ s with connAlive := false, reconnectPending := true },
            [.onErrorCall, .scheduleReconnect 5000])
        else
          ({ s with connAlive := false }, [.onErrorCall])
      else (s, [])
  | .cancelHandle => ({ s with isActive := false, connAlive := false }, [])
  | .unmountCleanup =>
      ({ s with mounted := false, isActive := false, connAlive := false }, [])
  | .reconnectTimer =>
      if s.reconnectPending then
        if s.mounted then
          ({ s with reconnectPending := false, isActive := true, connAlive := true }, [])
        else
          ({ s with reconnectPending := false }, [])
      else (s, [])

/-- Run the subscriber over a list of occurrences, collecting outputs. -/
def subRun (cfg : StreamCfg) : SubState → List SubInput → SubState × List SubOutput
  | s, [] => (s, [])
  | s, i :: rest =>
      let p := subStep cfg s i
      let q := subRun cfg p.1 rest
      (q.1, p.2 ++ q.2)

/-! ## Theorems -/

theorem be32_length (n : Nat) : (be32 n).length = 4 := rfl

theorem fromBe32_be32 (n : Nat) (h : n < 2 ^ 32) : fromBe32 (be32 n) = n := by
  simp only [be32, fromBe32]
  omega

/-- C5: round-trip of the frame codec.  Encoding prepends exactly one
compression-flag byte `0` and the 4-byte big-endian payload length;
decoding strips the 5-byte header, so `decodeFrame (encodeFrame p) = p`,
and for payloads below `2^32` bytes the stored length equals the
payload length. -/
theorem frame_roundtrip (p : List Nat) :
    decodeFrame (encodeFrame p) = .ok p ∧
    (encodeFrame p).take 1 = [0] ∧
    ((encodeFrame p).drop 1).take 4 = be32 (p.length % 2 ^ 32) ∧
    (p.length < 2 ^ 32 → fromBe32 (((encodeFrame p).drop 1).take 4) = p.length) := by
  refine ⟨?_, ?_, ?_, ?_⟩
  · simp [decodeFrame, encodeFrame, be32]
  · simp [encodeFrame]
  · simp [encodeFrame, be32]
  · intro h
    simp only [encodeFrame, be32, List.drop_succ_cons, List.drop_zero]
    rw [show (p.length % 2 ^ 32) = p.length from Nat.mod_eq_of_lt h]
    have : ([p.length / 2 ^ 24 % 256, p.length / 2 ^ 16 % 256,
        p.length / 2 ^ 8 % 256, p.length % 256] ++ p).take 4
        = [p.length / 2 ^ 24 % 256, p.length / 2 ^ 16 % 256,
        p.length / 2 ^ 8 % 256, p.length % 256] := rfl
    rw [this]
    simp only [fromBe32]
    omega

/-- Witness for `frame_roundtrip` at the concrete payload `[7, 8, 9]`. -/
theorem frame_roundtrip_witness :
    decodeFrame (encodeFrame [7, 8, 9]) = .ok [7, 8, 9] ∧
    fromBe32 (((encodeFrame [7, 8, 9]).drop 1).take 4) = 3 := by
  refine ⟨(frame_roundtrip [7, 8, 9]).1, ?_⟩
  exact (frame_roundtrip [7, 8, 9]).2.2.2 (by decide)

/-- C6 counterexample: a frame declaring 200 payload bytes while only 3
bytes follow the header is not rejected: `decodeFrame` returns the 3
trailing bytes and never inspects the length prefix, contradicting the
claim that such malformed frames raise an error. -/
theorem decodeFrame_ignores_declared_length :
    declaredLen [0, 0, 0, 0, 200, 1, 2, 3] = 200 ∧
    ([0, 0, 0, 0, 200, 1, 2, 3].drop 5).length = 3 ∧
    decodeFrame [0, 0, 0, 0, 200, 1, 2, 3] = .ok [1, 2, 3] ∧
    exceptIsOk (decodeFrame [0, 0, 0, 0, 200, 1, 2, 3]) = true := by
  refine ⟨by decide, by decide, by rfl, by rfl⟩

/-- C6 amended: `decodeFrame` raises on every buffer shorter than 5
bytes, and on every buffer of at least 5 bytes it returns all bytes
after the 5-byte header without validating the declared length. -/
theorem decodeFrame_short_raises_no_length_check (b : List Nat) :
    (b.length < 5 → exceptIsOk (decodeFrame b) = false) ∧
    (5 ≤ b.length → decodeFrame b = .ok (b.drop 5)) := by
  constructor
  · intro h
    simp [decodeFrame, h, exceptIsOk]
  · intro h
    simp [decodeFrame, Nat.not_lt.mpr h]

/-- Witness for `decodeFrame_short_raises_no_length_check` at the
concrete buffers `[1, 2]` (short) and `[0, 0, 0, 0, 1, 42]`. -/
theorem decodeFrame_short_raises_no_length_check_witness :
    exceptIsOk (decodeFrame [1, 2]) = false ∧
    decodeFrame [0, 0, 0, 0, 1, 42] = .ok [42] := by
  refine ⟨(decodeFrame_short_raises_no_length_check [1, 2]).1 (by decide), ?_⟩
  exact (decodeFrame_short_raises_no_length_check [0, 0, 0, 0, 1, 42]).2 (by decide)

/-- C1: a mutating call (InitMarket, ConnectToPeer, OpenChannel) whose
response carries no `grpc-status` header, whose body holds no
`grpc-status:0` success marker, and whose body does not decode as a
structured response, raises an error from `grpcCall`; it never returns
one of the synthesized success values of the permissive read-call
fallbacks. -/
theorem mutating_no_marker_raises (pb : PbDecoder) (r : HttpResponse)
    (hs : r.grpcStatus = none)
    (hm : hasSuccessMarker r.bodyText = false)
    (hd : tryDecode pb "hydra_app.NodeService" "OpenChannel" r.bodyBytes = none) :
    isErr (grpcCall pb "hydra_app.OrderbookService" "InitMarket" r) = true ∧
    isErr (grpcCall pb "hydra_app.NodeService" "ConnectToPeer" r) = true ∧
    isErr (grpcCall pb "hydra_app.NodeService" "OpenChannel" r) = true := by
  cases h200 : (r.httpStatus == 200) with
  | false =>
      simp [grpcCall, hs, grpcCallNull, h200, isErr]
  | true =>
      simp [grpcCall, hs, grpcCallNull, h200, hasNullBranchDecoder,
        textFallback200, textFallbackTail, hm, hd, isErr]

/-- Witness for `mutating_no_marker_raises`: an HTTP 200 response with
no status header, an empty body and the body text `hello`. -/
theorem mutating_no_marker_raises_witness :
    isErr (grpcCall (fun _ _ _ => none) "hydra_app.OrderbookService" "InitMarket"
      ⟨200, none, "", [], "hello"⟩) = true ∧
    isErr (grpcCall (fun _ _ _ => none) "hydra_app.NodeService" "ConnectToPeer"
      ⟨200, none, "", [], "hello"⟩) = true ∧
    isErr (grpcCall (fun _ _ _ => none) "hydra_app.NodeService" "OpenChannel"
      ⟨200, none, "", [], "hello"⟩) = true :=
  mutating_no_marker_raises (fun _ _ _ => none) ⟨200, none, "", [], "hello"⟩
    rfl (by decide) rfl

/-- C8: a GetBalances call whose response is HTTP 200 without a
`grpc-status` header, does not decode as a structured response and whose
body matches no asset-id pattern yields the empty balances record to
the caller of `getBalances`, not an error; when the body carries the
embedded `grpc-status:0` marker the empty record already comes out of
`grpcCall` itself. -/
theorem getBalances_no_asset_pattern_yields_empty (pb : PbDecoder) (r : HttpResponse)
    (h200 : r.httpStatus = 200) (hs : r.grpcStatus = none)
    (hd : tryDecode pb "hydra_app.WalletService" "GetBalances" r.bodyBytes = none)
    (ha : findAssetId r.bodyText.toList = none) :
    (hasSuccessMarker r.bodyText = true →
      grpcCall pb "hydra_app.WalletService" "GetBalances" r = .textBalances []) ∧
    getBalancesFanOut [grpcCall pb "hydra_app.WalletService" "GetBalances" r] = [] := by
  have ha' : findAssetId r.bodyText.data = none := ha
  cases hm : hasSuccessMarker r.bodyText with
  | true =>
      have hc : grpcCall pb "hydra_app.WalletService" "GetBalances" r = .textBalances [] := by
        simp [grpcCall, hs, grpcCallNull, h200, hasNullBranchDecoder, hd,
          textFallback200, hm, parseBalancesText, ha']
      exact ⟨fun _ => hc, by simp [hc, getBalancesFanOut, balStep, respBalances, objAssign]⟩
  | false =>
      have hc : grpcCall pb "hydra_app.WalletService" "GetBalances" r
          = .err "No gRPC headers in response" := by
        simp [grpcCall, hs, grpcCallNull, h200, hasNullBranchDecoder, hd,
          textFallback200, textFallbackTail, hm]
      exact ⟨fun h => absurd h (by simp [hm]), by simp [hc, getBalancesFanOut, balStep]⟩

/-- Witness for `getBalances_no_asset_pattern_yields_empty` at an HTTP
200 response whose body text is exactly the marker `grpc-status:0`. -/
theorem getBalances_no_asset_pattern_yields_empty_witness :
    grpcCall (fun _ _ _ => none) "hydra_app.WalletService" "GetBalances"
      ⟨200, none, "", [], "grpc-status:0"⟩ = .textBalances [] ∧
    getBalancesFanOut [grpcCall (fun _ _ _ => none) "hydra_app.WalletService" "GetBalances"
      ⟨200, none, "", [], "grpc-status:0"⟩] = [] := by
  have h := getBalances_no_asset_pattern_yields_empty (fun _ _ _ => none)
    ⟨200, none, "", [], "grpc-status:0"⟩ rfl rfl rfl (by decide)
  exact ⟨h.1 (by decide), h.2⟩

theorem objAssign_nil (t : BalMap) : objAssign t [] = t := rfl

theorem objAssign_cons (t : BalMap) (kv : String × BalVal) (rest : BalMap) :
    objAssign t (kv :: rest) = objAssign (assignKey t kv.1 kv.2) rest := rfl

theorem balStep_eq (acc : BalMap) (res : CallResult) :
    balStep acc res
      = match balSuccess res with
        | some m => objAssign acc m
        | none => acc := by
  cases res <;> rfl

theorem chanStep_eq (acc : List ChannelV) (res : CallResult) :
    chanStep acc res
      = match chanSuccess res with
        | some cs => acc ++ cs
        | none => acc := by
  cases res <;> rfl

theorem balFold_eq (results : List CallResult) (acc : BalMap) :
    results.foldl balStep acc = (successfulBalanceMaps results).foldl objAssign acc := by
  induction results generalizing acc with
  | nil => rfl
  | cons r rest ih =>
      rw [List.foldl_cons, balStep_eq]
      cases hr : balSuccess r with
      | some m => simp [successfulBalanceMaps, List.filterMap_cons, hr, ih]
      | none => simp [successfulBalanceMaps, List.filterMap_cons, hr, ih]

theorem chanFold_eq (results : List CallResult) (acc : List ChannelV) :
    results.foldl chanStep acc
      = (successfulChannelLists results).foldl (· ++ ·) acc := by
  induction results generalizing acc with
  | nil => rfl
  | cons r rest ih =>
      rw [List.foldl_cons, chanStep_eq]
      cases hr : chanSuccess r with
      | some cs => simp [successfulChannelLists, List.filterMap_cons, hr, ih]
      | none => simp [successfulChannelLists, List.filterMap_cons, hr, ih]

theorem balSuccess_of_isErr (res : CallResult) (h : isErr res = true) :
    balSuccess res = none := by
  cases res <;> simp_all [isErr, balSuccess]

theorem chanSuccess_of_isErr (res : CallResult) (h : isErr res = true) :
    chanSuccess res = none := by
  cases res <;> simp_all [isErr, chanSuccess]

/-- C4: the fan-out aggregates are exactly the merge of the successful
per-network results: raised per-network errors are skipped without
affecting sibling results, and when every network raises, the
aggregates are the documented empty values (`getBalances` and
`getChannels` are total functions of the outcomes, so the call as a
whole never raises). -/
theorem fanout_isolated_merge (results : List CallResult) :
    getBalancesFanOut results = specMergeBalances results ∧
    getChannelsFanOut results = specMergeChannels results ∧
    ((∀ res ∈ results, isErr res = true) →
      getBalancesFanOut results = [] ∧ getChannelsFanOut results = []) := by
  refine ⟨balFold_eq results [], chanFold_eq results [], fun hall => ?_⟩
  have hb : successfulBalanceMaps results = [] := by
    rw [successfulBalanceMaps, List.filterMap_eq_nil_iff]
    exact fun res hres => balSuccess_of_isErr res (hall res hres)
  have hcs : successfulChannelLists results = [] := by
    rw [successfulChannelLists, List.filterMap_eq_nil_iff]
    exact fun res hres => chanSuccess_of_isErr res (hall res hres)
  constructor
  · simp only [getBalancesFanOut]
    rw [balFold_eq results [], hb]
    rfl
  · simp only [getChannelsFanOut]
    rw [chanFold_eq results [], hcs]
    rfl

/-- Witness for `fanout_isolated_merge`: three networks of which the
middle one raises, and a run where every network raises. -/
theorem fanout_isolated_merge_witness :
    getBalancesFanOut [.textBalances [("a", ⟨"1", "2"⟩)], .err "boom",
        .textBalances [("b", ⟨"3", "4"⟩)]]
      = specMergeBalances [.textBalances [("a", ⟨"1", "2"⟩)], .err "boom",
        .textBalances [("b", ⟨"3", "4"⟩)]] ∧
    getBalancesFanOut [.err "boom", .err "crash"] = [] ∧
    getChannelsFanOut [.err "boom", .err "crash"] = [] := by
  refine ⟨(fanout_isolated_merge _).1, ?_, ?_⟩
  · exact ((fanout_isolated_merge [.err "boom", .err "crash"]).2.2 (by decide)).1
  · exact ((fanout_isolated_merge [.err "boom", .err "crash"]).2.2 (by decide)).2

theorem lookupKey_assignKey_self (m : BalMap) (k : String) (v : BalVal) :
    lookupKey k (assignKey m k v) = some v := by
  induction m with
  | nil => simp [assignKey, lookupKey]
  | cons kv rest ih =>
      obtain ⟨k', v'⟩ := kv
      by_cases h : k' = k
      · simp [assignKey, h, lookupKey]
      · simp [assignKey, h, lookupKey, ih]

theorem lookupKey_assignKey_ne (m : BalMap) (k k' : String) (v : BalVal)
    (h : k' ≠ k) : lookupKey k (assignKey m k' v) = lookupKey k m := by
  induction m with
  | nil => simp [assignKey, lookupKey, h]
  | cons kv rest ih =>
      obtain ⟨k0, v0⟩ := kv
      by_cases h0 : k0 = k'
      · subst h0
        simp [assignKey, lookupKey, h]
      · simp [assignKey, h0, lookupKey, ih]

theorem lookupKey_eq_none_of_not_mem (m : BalMap) (k : String)
    (h : k ∉ keys m) : lookupKey k m = none := by
  induction m with
  | nil => rfl
  | cons kv rest ih =>
      obtain ⟨k0, v0⟩ := kv
      simp only [keys, List.map_cons, List.mem_cons, not_or] at h
      have h1 : ¬ (k0 = k) := fun hh => h.1 hh.symm
      have h2 : k ∉ keys rest := h.2
      simp [lookupKey, h1, ih h2]

theorem lookupKey_objAssign_of_none (s : BalMap) (k : String) :
    ∀ t : BalMap, lookupKey k s = none →
      lookupKey k (objAssign t s) = lookupKey k t := by
  induction s with
  | nil => intro t _; rfl
  | cons kv rest ih =>
      intro t h
      obtain ⟨k0, v0⟩ := kv
      by_cases h0 : k0 = k
      · simp [lookupKey, h0] at h
      · have hrest : lookupKey k rest = none := by simpa [lookupKey, h0] using h
        rw [objAssign_cons, ih _ hrest, lookupKey_assignKey_ne _ _ _ _ h0]

theorem lookupKey_objAssign_of_some (s : BalMap) (k : String) (v : BalVal) :
    ∀ t : BalMap, (keys s).Nodup → lookupKey k s = some v →
      lookupKey k (objAssign t s) = some v := by
  induction s with
  | nil => intro t _ h; simp [lookupKey] at h
  | cons kv rest ih =>
      intro t hnd h
      obtain ⟨k0, v0⟩ := kv
      simp only [keys, List.map_cons, List.nodup_cons] at hnd
      rw [objAssign_cons]
      by_cases h0 : k0 = k
      · subst h0
        have hv : v0 = v := by simpa [lookupKey] using h
        subst hv
        have hnone : lookupKey k0 rest = none :=
          lookupKey_eq_none_of_not_mem rest k0 hnd.1
        rw [lookupKey_objAssign_of_none rest k0 _ hnone, lookupKey_assignKey_self]
      · have h' : lookupKey k rest = some v := by simpa [lookupKey, h0] using h
        exact ih _ hnd.2 h'

theorem keys_assignKey_of_mem (m : BalMap) (k : String) (v : BalVal)
    (h : k ∈ keys m) : keys (assignKey m k v) = keys m := by
  induction m with
  | nil => simp [keys] at h
  | cons kv rest ih =>
      obtain ⟨k0, v0⟩ := kv
      by_cases h0 : k0 = k
      · simp [assignKey, h0, keys]
      · have h' : k ∈ keys rest := by
          simp only [keys, List.map_cons, List.mem_cons] at h
          rcases h with h | h
          · exact absurd h.symm h0
          · exact h
        have hih := ih h'
        simp only [keys] at hih
        simp [assignKey, h0, keys, hih]

theorem keys_assignKey_of_not_mem (m : BalMap) (k : String) (v : BalVal)
    (h : k ∉ keys m) : keys (assignKey m k v) = keys m ++ [k] := by
  induction m with
  | nil => simp [assignKey, keys]
  | cons kv rest ih =>
      obtain ⟨k0, v0⟩ := kv
      simp only [keys, List.map_cons, List.mem_cons, not_or] at h
      have h0 : ¬ (k0 = k) := fun hh => h.1 hh.symm
      have hih := ih h.2
      simp only [keys] at hih
      simp [assignKey, h0, keys, hih]

theorem nodup_keys_assignKey (m : BalMap) (k : String) (v : BalVal)
    (h : (keys m).Nodup) : (keys (assignKey m k v)).Nodup := by
  by_cases hm : k ∈ keys m
  · rw [keys_assignKey_of_mem m k v hm]; exact h
  · rw [keys_assignKey_of_not_mem m k v hm]
    simp only [List.nodup_append, List.nodup_cons, List.not_mem_nil,
      not_false_iff, List.nodup_nil, and_true, true_and, h]
    intro a ha
    simp only [List.mem_singleton]
    intro hak
    exact hm (hak ▸ ha)

theorem nodup_keys_objAssign (s : BalMap) :
    ∀ t : BalMap, (keys t).Nodup → (keys (objAssign t s)).Nodup := by
  induction s with
  | nil => exact fun t h => h
  | cons kv rest ih =>
      intro t h
      rw [objAssign_cons]
      exact ih _ (nodup_keys_assignKey t kv.1 kv.2 h)

/-- C10: the `getBalances` aggregate assigns successful per-network
balance maps into one record, so when two networks both report the same
asset id the later-queried network overwrites the earlier entry, and
the aggregate keeps at most one entry per asset id. -/
theorem getBalances_later_network_overwrites (m1 m2 : BalMap) (k : String)
    (v1 v2 : BalVal) (hnd2 : (keys m2).Nodup)
    (_h1 : lookupKey k m1 = some v1) (h2 : lookupKey k m2 = some v2) :
    lookupKey k (getBalancesFanOut [.textBalances m1, .textBalances m2]) = some v2 ∧
    (keys (getBalancesFanOut [.textBalances m1, .textBalances m2])).Nodup := by
  have hfan : getBalancesFanOut [.textBalances m1, .textBalances m2]
      = objAssign (objAssign [] m1) m2 := rfl
  constructor
  · rw [hfan]
    exact lookupKey_objAssign_of_some m2 k v2 _ hnd2 h2
  · rw [hfan]
    exact nodup_keys_objAssign m2 _ (nodup_keys_objAssign m1 [] (by simp [keys]))

/-- Witness for `getBalances_later_network_overwrites`: two networks
that both report asset `a`; the second one wins. -/
theorem getBalances_later_network_overwrites_witness :
    lookupKey "a" (getBalancesFanOut [.textBalances [("a", ⟨"1", "1"⟩)],
      .textBalances [("a", ⟨"2", "3"⟩)]]) = some ⟨"2", "3"⟩ ∧
    (keys (getBalancesFanOut [.textBalances [("a", ⟨"1", "1"⟩)],
      .textBalances [("a", ⟨"2", "3"⟩)]])).Nodup :=
  getBalances_later_network_overwrites [("a", ⟨"1", "1"⟩)] [("a", ⟨"2", "3"⟩)]
    "a" ⟨"1", "1"⟩ ⟨"2", "3"⟩ (by decide) (by decide) (by decide)

/-- C9 counterexample: two collaborator-facing operations substitute a
default value for a failure outcome instead of raising: a raised
per-call error makes `getFeeEstimates` return hardcoded protocol
fallback fees and makes `getNetworks` return the empty list. -/
theorem feeEstimates_substitutes_defaults_on_failure :
    getFeeEstimatesOp ⟨Protocol.BITCOIN, "regtest1"⟩ (.err "network unreachable")
      = btcFallbackFees ∧
    getFeeEstimatesOp ⟨Protocol.EVM, "11155111"⟩ (.err "network unreachable")
      = evmFallbackFees ∧
    getNetworksOp (.err "network unreachable") = [] := by
  refine ⟨rfl, rfl, rfl⟩

/-- C9 amended: the channel mutations and peer connect rethrow every
raised error to the caller, while the read-style operations substitute
documented defaults: `getNetworks` returns the empty list and
`getFeeEstimates` returns the hardcoded protocol-specific fees. -/
theorem ops_error_split (e : String) (net : Network) :
    connectToPeerOp (.err e) = .error e ∧
    openChannelOp (.err e) = .error e ∧
    depositChannelOp (.err e) = .error e ∧
    withdrawChannelOp (.err e) = .error e ∧
    closeChannelOp (.err e) = .error e ∧
    forceCloseChannelOp (.err e) = .error e ∧
    getNetworksOp (.err e) = [] ∧
    getFeeEstimatesOp net (.err e) = protocolFallbackFees net := by
  refine ⟨rfl, rfl, rfl, rfl, rfl, rfl, rfl, rfl⟩

/-- C2 counterexample: a channel-update event triggers exactly the two
immediate invalidations of the channels and balances keys; no delayed
invalidation at 2000 ms or 5000 ms is scheduled by the event handler,
contradicting the claimed additional delayed invalidations. -/
theorem channelUpdate_no_delayed_invalidation :
    handleNodeEvent true ⟨true, false, false, false⟩
      = [(0, channelsKey), (0, balancesKey)] ∧
    (2000, channelsKey) ∉ handleNodeEvent true ⟨true, false, false, false⟩ ∧
    (5000, balancesKey) ∉ handleNodeEvent true ⟨true, false, false, false⟩ := by
  refine ⟨rfl, by decide, by decide⟩

/-- C2 amended: a channel-update event marks both the channel-list key
and the balances key stale immediately, and every invalidation issued
by the node-event handler is immediate; the two delayed invalidations
at 2000 ms and 5000 ms exist only in the connect-to-peer success
handler and target the peers key. -/
theorem channelUpdate_invalidates_both_keys_immediately (e : NodeEventV)
    (h : e.channelUpdate = true) :
    (0, channelsKey) ∈ handleNodeEvent true e ∧
    (0, balancesKey) ∈ handleNodeEvent true e ∧
    (∀ p ∈ handleNodeEvent true e, p.1 = 0) ∧
    connectToPeerOnSuccess = [(0, peersKey), (2000, peersKey), (5000, peersKey)] := by
  obtain ⟨cu, cc, ac, pu⟩ := e
  cases cu
  · cases h
  · cases cc <;> cases ac <;> cases pu <;> exact ⟨by decide, by decide, by decide, rfl⟩

/-- Witness for `channelUpdate_invalidates_both_keys_immediately` at
the pure channel-update event. -/
theorem channelUpdate_invalidates_both_keys_immediately_witness :
    (0, channelsKey) ∈ handleNodeEvent true ⟨true, false, false, false⟩ ∧
    (0, balancesKey) ∈ handleNodeEvent true ⟨true, false, false, false⟩ :=
  ⟨(channelUpdate_invalidates_both_keys_immediately ⟨true, false, false, false⟩ rfl).1,
    (channelUpdate_invalidates_both_keys_immediately ⟨true, false, false, false⟩ rfl).2.1⟩

/-- C3 counterexample: a chunk whose decode fails on an active, mounted
node-event subscription produces no handler invocation at all: the
error is logged and swallowed, `onError` is never invoked and no
reconnect is scheduled; and a read error on the client-event stream
invokes `onError` without scheduling any reconnect. -/
theorem decode_error_swallowed :
    (subStep nodeCfg subInit .chunkBad).2 = [] ∧
    SubOutput.onErrorCall ∉ (subStep nodeCfg subInit .chunkBad).2 ∧
    (subStep clientCfg subInit .readError).2 = [.onErrorCall] := by
  refine ⟨rfl, by decide, rfl⟩

/-- C3 amended: a read error on an active subscription always invokes
`onError`; the mounted node-event hook then tears the connection down
and schedules exactly one reconnect after 5000 ms, the client-event
hook tears down without scheduling a reconnect, and a decode error is
swallowed with no handler invocation. -/
theorem stream_error_handling (cfg : StreamCfg) (s : SubState)
    (hA : s.isActive = true) (hC : s.connAlive = true) (hM : s.mounted = true) :
    (subStep nodeCfg s .readError).2 = [.onErrorCall, .scheduleReconnect 5000] ∧
    (subStep nodeCfg s .readError).1.connAlive = false ∧
    (subStep nodeCfg s .readError).1.reconnectPending = true ∧
    (subStep clientCfg s .readError).2 = [.onErrorCall] ∧
    (subStep cfg s .chunkBad).2 = [] := by
  simp [subStep, hA, hC, hM, nodeCfg, clientCfg]

/-- Witness for `stream_error_handling` at the freshly subscribed
state. -/
theorem stream_error_handling_witness :
    (subStep nodeCfg subInit .readError).2
      = [.onErrorCall, .scheduleReconnect 5000] ∧
    (subStep clientCfg subInit .readError).2 = [.onErrorCall] := by
  have h := stream_error_handling nodeCfg subInit rfl rfl rfl
  exact ⟨h.1, h.2.2.2.1⟩

/-- C7 counterexample: a read error schedules a reconnect, the handle
is then cancelled, yet the timer fires while the hook is still mounted,
re-subscribes, and a later chunk produces an `onEvent` invocation after
the cancel, contradicting the claim that no further `onEvent`
invocations occur after the first cancel. -/
theorem cancel_does_not_stop_pending_reconnect :
    (subRun nodeCfg subInit [.readError, .cancelHandle]).2
      = [.onErrorCall, .scheduleReconnect 5000] ∧
    (subRun nodeCfg subInit
      [.readError, .cancelHandle, .reconnectTimer, .chunkGood 7]).2
      = [.onErrorCall, .scheduleReconnect 5000, .onEventCall 7] ∧
    SubOutput.onEventCall 7 ∈ (subRun nodeCfg subInit
      [.readError, .cancelHandle, .reconnectTimer, .chunkGood 7]).2 := by
  refine ⟨rfl, rfl, by decide⟩

theorem subStep_dead (cfg : StreamCfg) (s : SubState) (i : SubInput)
    (hm : s.mounted = false) (ha : s.isActive = false) (hc : s.connAlive = false) :
    (subStep cfg s i).2 = [] ∧ (subStep cfg s i).1.mounted = false ∧
    (subStep cfg s i).1.isActive = false ∧ (subStep cfg s i).1.connAlive = false := by
  cases i
  case reconnectTimer =>
    cases hrp : s.reconnectPending <;> simp [subStep, hm, ha, hc, hrp]
  all_goals simp [subStep, hm, ha, hc]

theorem subRun_dead (cfg : StreamCfg) (ins : List SubInput) :
    ∀ s : SubState, s.mounted = false → s.isActive = false → s.connAlive = false →
      (subRun cfg s ins).2 = [] := by
  induction ins with
  | nil => intro s _ _ _; rfl
  | cons i rest ih =>
      intro s hm ha hc
      obtain ⟨h1, h2, h3, h4⟩ := subStep_dead cfg s i hm ha hc
      simp [subRun, h1, ih _ h2 h3 h4]

/-- C7 amended: the unsubscribe function is idempotent and itself
produces no handler invocation, and the cancelled connection delivers
no further events; but only the unmount cleanup (which clears the
hook-level `mounted` flag in addition to unsubscribing) guarantees that
no handler invocation ever happens afterwards — a reconnect pending at
cancel time fires regardless of the handle cancel and resumes handler
invocations while the hook stays mounted. -/
theorem cancel_idempotent_unmount_silences (cfg : StreamCfg) (s : SubState)
    (t : Nat) (ins : List SubInput) :
    (subStep cfg (subStep cfg s .cancelHandle).1 .cancelHandle).1
      = (subStep cfg s .cancelHandle).1 ∧
    (subStep cfg s .cancelHandle).2 = [] ∧
    (subStep cfg (subStep cfg s .cancelHandle).1 (.chunkGood t)).2 = [] ∧
    (subRun cfg (subStep cfg s .unmountCleanup).1 ins).2 = [] := by
  refine ⟨rfl, rfl, by simp [subStep], ?_⟩
  exact subRun_dead cfg ins _ rfl rfl rfl

end HydraDashboard
